import Mathlib

/-!
# FlashFIFO: a shallow embedding of FIFO.c (second revision) in Lean 4

This file embeds the NOR-flash FIFO implementation of FlashFIFO
(FIFO.c, the revision that maintains per-page counter bytes) and settles
the frozen claims C1..C10 about it.

Modelling conventions:

* Flash is a `List Nat` of byte values; `flash_read` of one byte is
  `List.getD` with default `0xFF` (the erased value); `flash_write`
  performs the NOR AND-semantics (`old &&& new`), matching the mock
  driver `flash_port_mock.c` (`store[i] &= data[i]`); `flash_erase`
  restores a whole page to `0xFF`.
* The file occupies offsets `0 .. FILE_SIZE-1` of the flash
  (`handle->start = 0`, i.e. `FILE_ROOT_BLOCK` with `FILE_OFFSET 0`).
* `uint32_t` subtraction that may wrap is modelled by `sub32`
  (subtraction modulo `2^32`); `uint32_t` addition of `free_space`
  by `addU32`; `uint8_t` truncation by `% 256`.
* C loops (`while`) are modelled with an explicit fuel parameter;
  `none` means the loop was not observed to terminate within the
  given fuel.  All straight-line code is total.
* `file_write` additionally returns the list of flash-write events it
  issued, in order (`trace`), and the offset at which it placed the
  chunk header (`chunk_off`, meaningful when the write was accepted);
  both are ghost observations of the very calls the C code makes.
* The `open_handles[]` bookkeeping of duplicate opens is not modelled;
  every claim below concerns a single already-open handle.
-/

namespace FlashFIFO

/-- `FLASH_PAGE_SIZE` from configure.h. -/
def FLASH_PAGE_SIZE : Nat := 128

/-- `FILE_SIZE = 3 * FLASH_PAGE_SIZE` from FIFO.h. -/
def FILE_SIZE : Nat := 384

/-- `PAGE_COUNTER_SIZE` from FIFO.h. -/
def PAGE_COUNTER_SIZE : Nat := 1

/-- `2^32`, the modulus of C `uint32_t` arithmetic. -/
def U32 : Nat := 4294967296

/-- C `uint32_t` subtraction `a - b` (wrapping). -/
def sub32 (a b : Nat) : Nat := ((a % U32) + (U32 - b % U32)) % U32

/-- C `uint32_t` addition `a + b` (wrapping). -/
def addU32 (a b : Nat) : Nat := (a + b) % U32

/-- The in-RAM per-file handle (`file_handle_t` of FIFO.h), restricted to
the fields the second-revision code uses.  `start` is fixed to 0. -/
structure file_handle_t where
  write_offset : Nat
  raw_read_chunk_start : Nat
  raw_read_chunk_offset : Nat
  destructive_read_offset : Nat
  free_space : Nat
  write_count : Nat
deriving DecidableEq, Repr

/-- The flash contents: byte `a` of the device is entry `a`. -/
abbrev Flash := List Nat

/-- One-byte `flash_read`; out-of-range reads give the erased value. -/
def flashRead (fl : Flash) (a : Nat) : Nat := fl.getD a 255

/-- One-byte `flash_write` with NOR AND-semantics (mock: `store[i] &= v`). -/
def flashWriteByte (fl : Flash) (a v : Nat) : Flash :=
  fl.set a (flashRead fl a &&& v)

/-- Multi-byte `flash_write`: AND each byte in order. -/
def flashWriteBytes (fl : Flash) (a : Nat) (bs : List Nat) : Flash :=
  match bs with
  | [] => fl
  | b :: rest => flashWriteBytes (flashWriteByte fl a b) (a + 1) rest

/-- `flash_erase` of one page starting at `a`: restore to all `0xFF`. -/
def flash_erase (fl : Flash) (a : Nat) : Flash :=
  (List.range FLASH_PAGE_SIZE).foldl (fun f k => f.set (a + k) 255) fl

/-- The `n` bytes read by `flash_read(a, buf, n)`. -/
def readBytes (fl : Flash) (a n : Nat) : List Nat :=
  (List.range n).map (fun k => flashRead fl (a + k))

/-- A flash-write event (address and bytes), for write-ordering claims. -/
structure FlashEvent where
  addr : Nat
  bytes : List Nat
deriving DecidableEq, Repr

/-- Replay a list of flash-write events against a flash image. -/
def applyTrace (fl : Flash) (tr : List FlashEvent) : Flash :=
  tr.foldl (fun f e => flashWriteBytes f e.addr e.bytes) fl

/-- The loop of `count_ones` (`for (; b > 0; b &= b - 1, ct++)`), with a
structural bound on the iteration count: since `(b+1) &&& b ≤ b`, a
bound of `b` iterations always suffices, so the bound never runs out. -/
def count_ones_go : Nat → Nat → Nat
  | _, 0 => 0
  | 0, _ + 1 => 0
  | f + 1, b + 1 => 1 + count_ones_go f ((b + 1) &&& b)

/-- `count_ones` from FIFO.c: popcount via `b &= b - 1`. -/
def count_ones (b : Nat) : Nat := count_ones_go b b

/-! ## The write path (straight-line, total)

`advance_write_pointer_to_next_page`, `advance_write_pointer` and
`file_write` of FIFO.c contain no loops.  Each returns the updated
flash, the trace of flash writes it appended, and the updated handle. -/

/-- `advance_write_pointer_to_next_page` (FIFO.c l.1211).  Note the
source tests `write_offset > FILE_SIZE` (strict), so a head that lands
exactly on `FILE_SIZE` is NOT wrapped. -/
def advance_write_pointer_to_next_page (fl : Flash) (tr : List FlashEvent)
    (h : file_handle_t) : Flash × List FlashEvent × file_handle_t :=
  let remaining := sub32 FLASH_PAGE_SIZE h.write_offset % FLASH_PAGE_SIZE
  let wo := h.write_offset + remaining
  let fs := sub32 h.free_space remaining
  let wo := if FILE_SIZE < wo then 0 else wo
  let counter := flashRead fl wo
  if counter = 255 then
    let c := (255 <<< h.write_count) % 256
    let wc := if h.write_count + 1 = 9 then 1 else h.write_count + 1
    (flashWriteByte fl wo c, tr ++ [⟨wo, [c]⟩],
      { h with write_offset := wo + PAGE_COUNTER_SIZE, free_space := fs,
               write_count := wc })
  else
    (fl, tr, { h with write_offset := wo, free_space := fs })

/-- `advance_write_pointer` (FIFO.c l.1233). -/
def advance_write_pointer (fl : Flash) (tr : List FlashEvent)
    (h : file_handle_t) : Flash × List FlashEvent × file_handle_t :=
  let size := flashRead fl h.write_offset
  let wo := h.write_offset + size + 2
  let fs := sub32 h.free_space (size + 2)
  let wo := if FILE_SIZE ≤ wo then 0 else wo
  if wo % FLASH_PAGE_SIZE = 0 then
    let counter := flashRead fl wo
    if counter = 255 then
      let c := (255 <<< h.write_count) % 256
      let wc := if h.write_count + 1 = 9 then 1 else h.write_count + 1
      (flashWriteByte fl wo c, tr ++ [⟨wo, [c]⟩],
        { h with write_offset := wo + PAGE_COUNTER_SIZE, free_space := fs,
                 write_count := wc })
    else
      (fl, tr, { h with write_offset := wo, free_space := fs })
  else
    (fl, tr, { h with write_offset := wo, free_space := fs })

/-- The result of `file_write`: return value, updated handle and flash,
the ghost trace of flash writes, and the chunk-header offset. -/
structure WriteResult where
  ret : Nat
  handle : file_handle_t
  flash : Flash
  trace : List FlashEvent
  chunk_off : Nat
deriving DecidableEq, Repr

/-- The stall block at the top of `file_write` (FIFO.c l.1269-1283):
a head parked at a page boundary either keeps waiting (`false` =
return 0) or claims the now-erased page by writing its counter. -/
def write_entry (fl : Flash) (h : file_handle_t) :
    Bool × Flash × List FlashEvent × file_handle_t :=
  if h.write_offset % FLASH_PAGE_SIZE = 0 then
    let counter := flashRead fl h.write_offset
    if counter = 255 then
      let c := (255 <<< h.write_count) % 256
      let wc := if h.write_count + 1 = 9 then 1 else h.write_count + 1
      (true, flashWriteByte fl h.write_offset c, [⟨h.write_offset, [c]⟩],
        { h with write_offset := h.write_offset + PAGE_COUNTER_SIZE,
                 write_count := wc })
    else
      (false, fl, [], h)
  else
    (true, fl, [], h)

/-- The tail of `file_write` from the stall re-check onward
(FIFO.c l.1304-1325): reject if stuck at a page boundary or out of
space, otherwise write size byte, payload, commit byte, and advance. -/
def file_write_commit (fl : Flash) (tr : List FlashEvent)
    (h : file_handle_t) (data : List Nat) (size : Nat) : WriteResult :=
  if h.write_offset % FLASH_PAGE_SIZE = 0 then ⟨0, h, fl, tr, 0⟩
  else if h.free_space < size + 2 then ⟨0, h, fl, tr, 0⟩
  else
    let off := h.write_offset
    let payload := data.take size
    let fl := flashWriteByte fl off (size % 256)
    let fl := flashWriteBytes fl (off + 2) payload
    let fl := flashWriteByte fl (off + 1) 254
    let tr := tr ++ [⟨off, [size % 256]⟩, ⟨off + 2, payload⟩,
                     ⟨off + 1, [254]⟩]
    let b := advance_write_pointer fl tr h
    ⟨size, b.2.2, b.1, b.2.1, off⟩

/-- The size/space checks and page-fit step of `file_write`
(FIFO.c l.1285-1302). -/
def file_write_body (fl : Flash) (tr : List FlashEvent)
    (h : file_handle_t) (data : List Nat) (size : Nat) : WriteResult :=
  if 255 ≤ size then ⟨0, h, fl, tr, 0⟩
  else if FLASH_PAGE_SIZE < size + 2 + PAGE_COUNTER_SIZE then ⟨0, h, fl, tr, 0⟩
  else if h.free_space < size + 2 then ⟨0, h, fl, tr, 0⟩
  else
    let next_page := FLASH_PAGE_SIZE * (h.write_offset / FLASH_PAGE_SIZE)
      + FLASH_PAGE_SIZE
    let a := if next_page < h.write_offset + size + 2
             then advance_write_pointer_to_next_page fl tr h
             else (fl, tr, h)
    file_write_commit a.1 a.2.1 a.2.2 data size

/-- `file_write` (FIFO.c l.1265-1325). -/
def file_write (fl0 : Flash) (h0 : file_handle_t) (data : List Nat)
    (size : Nat) : WriteResult :=
  let e := write_entry fl0 h0
  if e.1 = false then ⟨0, e.2.2.2, e.2.1, e.2.2.1, 0⟩
  else file_write_body e.2.1 e.2.2.1 e.2.2.2 data size

/-! ## The read path -/

/-- `check_read_pointer` (FIFO.c l.874). -/
def check_read_pointer (fl : Flash) (h : file_handle_t) : Bool :=
  if h.raw_read_chunk_start = h.write_offset then true
  else flashRead fl (h.raw_read_chunk_start + 1) = 254

/-- The skip-invalid-chunk block inside the loop of
`advance_read_pointer_to_next_chunk` (FIFO.c l.916-929), followed by the
unconditional skip of a page-counter byte. -/
def arp_skip_invalid (fl : Flash) (h : file_handle_t) : file_handle_t :=
  let check := flashRead fl h.raw_read_chunk_start
  let r := if check ≠ 255 then
             let r := h.raw_read_chunk_start + check + 2
             if FILE_SIZE ≤ r then PAGE_COUNTER_SIZE else r
           else h.raw_read_chunk_start
  let r := if r % FLASH_PAGE_SIZE = 0 then r + PAGE_COUNTER_SIZE else r
  { h with raw_read_chunk_start := r }

/-- The skip-page-leftovers block inside the same loop (FIFO.c
l.933-949); note that this wrap resets to 0 and relies on the following
counter-byte skip. -/
def arp_skip_leftovers (fl : Flash) (h : file_handle_t) : file_handle_t :=
  let check := flashRead fl h.raw_read_chunk_start
  let r := if check = 255 then
             let r := h.raw_read_chunk_start
               + (FLASH_PAGE_SIZE - h.raw_read_chunk_start % FLASH_PAGE_SIZE)
             if FILE_SIZE ≤ r then 0 else r
           else h.raw_read_chunk_start
  let r := if r % FLASH_PAGE_SIZE = 0 then r + PAGE_COUNTER_SIZE else r
  { h with raw_read_chunk_start := r }

/-- The `while (!done)` loop of `advance_read_pointer_to_next_chunk`. -/
def arp_loop (fl : Flash) : Nat → file_handle_t → Option file_handle_t
  | 0, _ => none
  | fuel + 1, h =>
    if check_read_pointer fl h then some h
    else
      let h1 := arp_skip_invalid fl h
      if check_read_pointer fl h1 then some h1
      else
        let h2 := arp_skip_leftovers fl h1
        if check_read_pointer fl h2 then some h2
        else arp_loop fl fuel h2

/-- `advance_read_pointer_to_next_chunk` (FIFO.c l.888-954). -/
def advance_read_pointer_to_next_chunk (fuel : Nat) (fl : Flash)
    (h : file_handle_t) : Option file_handle_t :=
  let check := flashRead fl h.raw_read_chunk_start
  let r := h.raw_read_chunk_start + check + 2
  let r := if FILE_SIZE ≤ r then PAGE_COUNTER_SIZE else r
  let r := if r % FLASH_PAGE_SIZE = 0 then r + PAGE_COUNTER_SIZE else r
  arp_loop fl fuel { h with raw_read_chunk_start := r }

/-- The `while (size)` loop of `file_read` (FIFO.c l.1136-1198).
State: bytes returned so far `i`, remaining request `sz`, bytes
collected so far `out`, handle. -/
def file_read_loop (fl : Flash) :
    Nat → Nat → Nat → List Nat → file_handle_t →
    Option (Nat × List Nat × file_handle_t)
  | 0, _, _, _, _ => none
  | fuel + 1, i, sz, out, h =>
    if sz = 0 then some (i, out, h)
    else if h.raw_read_chunk_start = h.write_offset
            ∧ flashRead fl h.raw_read_chunk_start = 255 then
      some (i, out, h)
    else
      let chunk_size := flashRead fl h.raw_read_chunk_start
      let remaining := sub32 chunk_size h.raw_read_chunk_offset % 256
      if sz < remaining then
        let read_amount := sz % 256
        let out := out ++ readBytes fl
          (h.raw_read_chunk_start + 2 + h.raw_read_chunk_offset) sz
        let i := i + read_amount
        if remaining ≤ read_amount then
          match advance_read_pointer_to_next_chunk fuel fl h with
          | none => none
          | some h => some (i, out, { h with raw_read_chunk_offset := 0 })
        else
          some (i, out, { h with raw_read_chunk_offset :=
            h.raw_read_chunk_offset + read_amount })
      else
        let read_amount := remaining
        let out := out ++ readBytes fl
          (h.raw_read_chunk_start + 2 + h.raw_read_chunk_offset) remaining
        let i := i + read_amount
        let sz := sz - read_amount
        if read_amount = chunk_size then
          match advance_read_pointer_to_next_chunk fuel fl h with
          | none => none
          | some h =>
            file_read_loop fl fuel i sz out
              { h with raw_read_chunk_offset := 0 }
        else
          file_read_loop fl fuel i sz out
            { h with raw_read_chunk_offset :=
              h.raw_read_chunk_offset + read_amount }

/-- `file_read` (FIFO.c l.1136).  Returns the C return value, the bytes
delivered to the caller buffer, and the updated handle. -/
def file_read (fuel : Nat) (fl : Flash) (h : file_handle_t) (size : Nat) :
    Option (Nat × List Nat × file_handle_t) :=
  file_read_loop fl fuel 0 size [] h

/-! ## The consume path -/

/-- `check_destructive_read_pointer` (FIFO.c l.958). -/
def check_destructive_read_pointer (fl : Flash) (h : file_handle_t) : Bool :=
  if h.destructive_read_offset = h.raw_read_chunk_start then true
  else flashRead fl (h.destructive_read_offset + 1) = 254

/-- Skip-invalid block of `advance_destructive_read_pointer_to_next_chunk`
(FIFO.c l.1000-1017), with its `free_space` reclaim. -/
def adrp_skip_invalid (fl : Flash) (h : file_handle_t) : file_handle_t :=
  let check := flashRead fl h.destructive_read_offset
  let (r, fs) := if check ≠ 255 then
                   let r := h.destructive_read_offset + check + 2
                   let fs := addU32 h.free_space (check + 2)
                   (if FILE_SIZE ≤ r then 0 else r, fs)
                 else (h.destructive_read_offset, h.free_space)
  let r := if r % FLASH_PAGE_SIZE = 0 then r + PAGE_COUNTER_SIZE else r
  { h with destructive_read_offset := r, free_space := fs }

/-- Skip-leftovers block of the same loop (FIFO.c l.1020-1038). -/
def adrp_skip_leftovers (fl : Flash) (h : file_handle_t) : file_handle_t :=
  let check := flashRead fl h.destructive_read_offset
  let (r, fs) := if check = 255 then
                   let d := FLASH_PAGE_SIZE
                     - h.destructive_read_offset % FLASH_PAGE_SIZE
                   let r := h.destructive_read_offset + d
                   let fs := addU32 h.free_space d
                   (if FILE_SIZE ≤ r then 0 else r, fs)
                 else (h.destructive_read_offset, h.free_space)
  let r := if r % FLASH_PAGE_SIZE = 0 then r + PAGE_COUNTER_SIZE else r
  { h with destructive_read_offset := r, free_space := fs }

/-- The `while (!done)` loop of the destructive advance. -/
def adrp_loop (fl : Flash) : Nat → file_handle_t → Option file_handle_t
  | 0, _ => none
  | fuel + 1, h =>
    if check_destructive_read_pointer fl h then some h
    else
      let h1 := adrp_skip_invalid fl h
      if check_destructive_read_pointer fl h1 then some h1
      else
        let h2 := adrp_skip_leftovers fl h1
        if check_destructive_read_pointer fl h2 then some h2
        else adrp_loop fl fuel h2

/-- `advance_destructive_read_pointer_to_next_chunk` (FIFO.c l.972-1042). -/
def advance_destructive_read_pointer_to_next_chunk (fuel : Nat) (fl : Flash)
    (h : file_handle_t) : Option file_handle_t :=
  let size := flashRead fl h.destructive_read_offset
  let r := h.destructive_read_offset + size + 2
  let fs := addU32 h.free_space (size + 2)
  let r := if FILE_SIZE ≤ r then 0 else r
  let r := if r % FLASH_PAGE_SIZE = 0 then r + PAGE_COUNTER_SIZE else r
  adrp_loop fl fuel { h with destructive_read_offset := r, free_space := fs }

/-- The page-erase check at the bottom of the `file_consume` loop
(FIFO.c l.1085-1107). -/
def consume_erase_check (fl : Flash) (h : file_handle_t) : Flash :=
  if sub32 h.destructive_read_offset PAGE_COUNTER_SIZE % FLASH_PAGE_SIZE = 0 then
    let page_start :=
      if FLASH_PAGE_SIZE ≤ h.destructive_read_offset
      then h.destructive_read_offset - FLASH_PAGE_SIZE - PAGE_COUNTER_SIZE
      else FILE_SIZE - FLASH_PAGE_SIZE
    let test := flashRead fl (page_start + 1 + PAGE_COUNTER_SIZE)
    if test = 252 then
      if (h.write_offset ≤ page_start
          ∨ page_start + FLASH_PAGE_SIZE ≤ h.write_offset)
         ∧ (h.raw_read_chunk_start < page_start
            ∨ page_start + FLASH_PAGE_SIZE ≤ h.raw_read_chunk_start) then
        flash_erase fl page_start
      else fl
    else fl
  else fl

/-- Result of `file_consume`: return value, handle, flash, and the ghost
list of the sizes of the chunks this call marked `0xFC`, in order. -/
structure ConsumeResult where
  ret : Nat
  handle : file_handle_t
  flash : Flash
  marked : List Nat
deriving DecidableEq, Repr

/-- The `while (size)` loop of `file_consume` (FIFO.c l.1048-1111). -/
def file_consume_loop :
    Nat → Nat → Nat → file_handle_t → Flash → List Nat →
    Option ConsumeResult
  | 0, _, _, _, _, _ => none
  | fuel + 1, i, sz, h, fl, marked =>
    if sz = 0 then some ⟨i, h, fl, marked⟩
    else if h.destructive_read_offset = h.raw_read_chunk_start then
      some ⟨i, h, fl, marked⟩
    else
      let chunk_size := flashRead fl h.destructive_read_offset
      if sz < chunk_size then some ⟨i, h, fl, marked⟩
      else
        let fl := flashWriteByte fl (h.destructive_read_offset + 1) 252
        let sz := sz - chunk_size
        let i := i + chunk_size
        match advance_destructive_read_pointer_to_next_chunk fuel fl h with
        | none => none
        | some h =>
          let fl := consume_erase_check fl h
          file_consume_loop fuel i sz h fl (marked ++ [chunk_size])

/-- `file_consume` (FIFO.c l.1048). -/
def file_consume (fuel : Nat) (h : file_handle_t) (fl : Flash) (size : Nat) :
    Option ConsumeResult :=
  file_consume_loop fuel 0 size h fl []

/-! ## Recovery and open -/

/-- The chunk-walk of `find_and_repair_corrupted_pages` over one page
(FIFO.c l.586-607).  The source's test `(size == 0xFF) && (valid = 0xFF)`
uses an assignment, so it reduces to `size == 0xFF`. -/
def page_walk_corrupt (fl : Flash) (pageBase : Nat) :
    Nat → Nat → Option Bool
  | 0, _ => none
  | fuel + 1, addr =>
    if addr < pageBase + FLASH_PAGE_SIZE - 1 then
      let size := flashRead fl addr
      let valid := flashRead fl (addr + 1)
      if (size = 255 ∧ valid ≠ 255)
         ∨ (valid ≠ 255 ∧ valid ≠ 254 ∧ valid ≠ 252) then some true
      else if size = 255 then page_walk_corrupt fl pageBase fuel (addr + 2)
      else page_walk_corrupt fl pageBase fuel (addr + size + 2)
    else some false

/-- Whether a byte is in the legal page-counter set (the `switch` cases
of FIFO.c l.574-584). -/
def legal_counter (c : Nat) : Bool :=
  c = 255 ∨ c = 254 ∨ c = 252 ∨ c = 248 ∨ c = 240 ∨ c = 224 ∨ c = 192
    ∨ c = 128 ∨ c = 0

/-- `find_and_repair_corrupted_pages` (FIFO.c l.553-622): scan the pages
in order; the first corrupt page found is erased and scanning stops. -/
def find_and_repair_corrupted_pages (fuel : Nat) (fl : Flash) :
    List Nat → Option Flash
  | [] => some fl
  | i :: rest =>
    let pc := flashRead fl i
    if legal_counter pc then
      match page_walk_corrupt fl i fuel (i + 1) with
      | none => none
      | some true => some (flash_erase fl i)
      | some false => find_and_repair_corrupted_pages fuel fl rest
    else some (flash_erase fl i)

/-- One iteration of the page-counter scan of `site_write_pointer`
(FIFO.c l.640-653), on the accumulator
`(first_write_page, pages_written, smallest)`. -/
def swp_step (fl : Flash) (acc : Nat × Nat × Nat) (i : Nat) : Nat × Nat × Nat :=
  let counter := flashRead fl (FLASH_PAGE_SIZE * i)
  if counter ≠ 255 then
    if counter < acc.2.2 then (i, acc.2.1 + 1, counter)
    else (acc.1, acc.2.1 + 1, acc.2.2)
  else acc

/-- The page-counter scan of `site_write_pointer` (FIFO.c l.635-653):
returns `(first_write_page, pages_written, smallest)`. -/
def swp_scan (fl : Flash) : Nat × Nat × Nat :=
  (List.range (FILE_SIZE / FLASH_PAGE_SIZE)).foldl (swp_step fl) (0, 0, 255)

/-- The head-siting prologue of `site_write_pointer` (FIFO.c l.654-661):
page selection, `write_count` deduction, `free_space` recomputation. -/
def swp_stage1 (fl : Flash) (h : file_handle_t) : file_handle_t :=
  let s := swp_scan fl
  let h := { h with write_offset := s.1 * FLASH_PAGE_SIZE }
  let h := if s.2.2 < 255 then
             { h with write_count :=
               if 8 - count_ones s.2.2 + 1 = 9 then 1
               else 8 - count_ones s.2.2 + 1 }
           else h
  if 0 < s.2.1 then
    { h with free_space := FILE_SIZE
        - (s.2.1 - 1) * (FLASH_PAGE_SIZE - PAGE_COUNTER_SIZE)
        - FILE_SIZE / FLASH_PAGE_SIZE * PAGE_COUNTER_SIZE }
  else h

/-- The chunk-walk loop of `site_write_pointer` (FIFO.c l.689-714). -/
def swp_walk (fl : Flash) : Nat → file_handle_t → Option (Flash × file_handle_t)
  | 0, _ => none
  | fuel + 1, h =>
    let size := flashRead fl h.write_offset
    if size ≠ 255 then
      let h := { h with write_offset := h.write_offset + size + 2,
                        free_space := sub32 h.free_space (size + 2) }
      if h.write_offset % FLASH_PAGE_SIZE = 0 then
        let check := flashRead fl h.write_offset
        if check = 255 then
          let c := (255 <<< h.write_count) % 256
          let wc := if h.write_count + 1 = 9 then 1 else h.write_count + 1
          some (flashWriteByte fl h.write_offset c,
            { h with write_offset := h.write_offset + PAGE_COUNTER_SIZE,
                     write_count := wc })
        else some (fl, h)
      else swp_walk fl fuel h
    else some (fl, h)

/-- `site_write_pointer` (FIFO.c l.624-716). -/
def site_write_pointer (fuel : Nat) (fl : Flash) (h : file_handle_t) :
    Option (Flash × file_handle_t) :=
  let h := swp_stage1 fl h
  let size := flashRead fl (h.write_offset + 1)
  if size = 255 then
    let check := flashRead fl h.write_offset
    if check = 255 then
      let c := (255 <<< h.write_count) % 256
      let wc := if h.write_count + 1 = 9 then 1 else h.write_count + 1
      some (flashWriteByte fl h.write_offset c,
        { h with write_offset := h.write_offset + PAGE_COUNTER_SIZE,
                 write_count := wc })
    else some (fl, { h with write_offset := h.write_offset + PAGE_COUNTER_SIZE })
  else
    swp_walk fl fuel { h with write_offset := h.write_offset + PAGE_COUNTER_SIZE }

/-- The fast-forward inner loop of `site_read_pointer` (FIFO.c
l.770-809).  Every exit of the source loop sets `done = 1`, so the
outer loop stops right after it. -/
def srp_inner (fuel : Nat) (fl : Flash) (h : file_handle_t) :
    Nat → Option (Flash × file_handle_t)
  | 0 => none
  | f + 1 =>
    let c_size := flashRead fl h.destructive_read_offset
    let c_valid := flashRead fl (h.destructive_read_offset + 1)
    if h.destructive_read_offset = h.write_offset then some (fl, h)
    else if c_size = 255 then
      let page_start := FLASH_PAGE_SIZE
        * (h.destructive_read_offset / FLASH_PAGE_SIZE)
      let fl := flash_erase fl page_start
      let d := page_start + FLASH_PAGE_SIZE
      let d := if d = FILE_SIZE then 0 else d
      some (fl, { h with destructive_read_offset := d + PAGE_COUNTER_SIZE })
    else if c_valid = 254 then some (fl, h)
    else
      let d := h.destructive_read_offset + c_size + 2
      let h := { h with destructive_read_offset := d,
                        free_space := addU32 h.free_space (c_size + 2) }
      if h.destructive_read_offset % FLASH_PAGE_SIZE = 0 then
        let page_start := FLASH_PAGE_SIZE
          * ((h.destructive_read_offset - 1) / FLASH_PAGE_SIZE)
        let fl := flash_erase fl page_start
        srp_inner fuel fl
          { h with destructive_read_offset :=
              h.destructive_read_offset + PAGE_COUNTER_SIZE } f
      else srp_inner fuel fl h f

/-- The backwards page-walk outer loop of `site_read_pointer` (FIFO.c
l.734-821), with `pages_examined` as last state component. -/
def srp_outer (fl : Flash) (h : file_handle_t) :
    Nat → Nat → Option (Flash × file_handle_t)
  | 0, _ => none
  | fuel + 1, pe =>
    if h.write_offset + 1 = h.destructive_read_offset then some (fl, h)
    else if 0 < pe ∧ sub32 h.write_offset h.destructive_read_offset
                       < FLASH_PAGE_SIZE then
      let d := h.destructive_read_offset + FLASH_PAGE_SIZE
      let d := if FILE_SIZE ≤ d then PAGE_COUNTER_SIZE else d
      some (fl, { h with destructive_read_offset := d })
    else
      let check := flashRead fl (h.destructive_read_offset - PAGE_COUNTER_SIZE)
      if check = 255 then
        let d := h.destructive_read_offset + FLASH_PAGE_SIZE
        let d := if FILE_SIZE ≤ d then PAGE_COUNTER_SIZE else d
        some (fl, { h with destructive_read_offset := d })
      else
        let check2 := flashRead fl (h.destructive_read_offset + 1)
        if check2 = 252 then
          match srp_inner fuel fl h fuel with
          | none => none
          | some (fl, h) => some (fl, h)
        else
          let d := if h.destructive_read_offset = 1
                   then FILE_SIZE - FLASH_PAGE_SIZE + PAGE_COUNTER_SIZE
                   else sub32 h.destructive_read_offset FLASH_PAGE_SIZE
          srp_outer fl { h with destructive_read_offset := d } fuel (pe + 1)

/-- `site_read_pointer` (FIFO.c l.718-825). -/
def site_read_pointer (fuel : Nat) (fl : Flash) (h : file_handle_t) :
    Option (Flash × file_handle_t) :=
  let h := { h with destructive_read_offset :=
    FLASH_PAGE_SIZE * (h.write_offset / FLASH_PAGE_SIZE) + PAGE_COUNTER_SIZE }
  match srp_outer fl h fuel 0 with
  | none => none
  | some (fl, h) =>
    some (fl, { h with raw_read_chunk_start := h.destructive_read_offset })

/-- `file_open` (FIFO.c l.830-858) for `FILE_ROOT_BLOCK` (`start = 0`),
without the `open_handles[]` duplicate-open bookkeeping. -/
def file_open (fuel : Nat) (fl : Flash) : Option (file_handle_t × Flash) :=
  let h : file_handle_t :=
    { write_offset := 0, raw_read_chunk_start := 1, raw_read_chunk_offset := 0,
      destructive_read_offset := 1,
      free_space := FILE_SIZE - PAGE_COUNTER_SIZE * FILE_SIZE / FLASH_PAGE_SIZE,
      write_count := 1 }
  match find_and_repair_corrupted_pages fuel fl [0, 128, 256] with
  | none => none
  | some fl =>
    match site_write_pointer fuel fl h with
    | none => none
    | some (fl, h) =>
      match site_read_pointer fuel fl h with
      | none => none
      | some (fl, h) => some (h, fl)

/-! ## Cyclic ordering of ring positions -/

/-- Forward distance from `a` to `b` on the ring of `FILE_SIZE` offsets. -/
def ring_dist (a b : Nat) : Nat := (b + FILE_SIZE - a) % FILE_SIZE

/-- The spec's ordering invariant: the three heads are ring positions
and `r` lies on the forward arc from `d` to `w` (equality meaning a
head has caught up). -/
def ring_ordered (d r w : Nat) : Prop :=
  d < FILE_SIZE ∧ r < FILE_SIZE ∧ w < FILE_SIZE
    ∧ ring_dist d r + ring_dist r w = ring_dist d w

/-! ## Concrete scenario states used by the claim theorems

All scenarios run on a 512-byte flash image (the file occupies bytes
0..383; bytes 384.. belong to the next file's region and start erased,
exactly as after `fs_format`). -/

/-- A freshly formatted 512-byte flash region. -/
def erased512 : Flash := List.replicate 512 255

/-- A null handle, used only as the default of `Option.getD`. -/
def handle0 : file_handle_t := ⟨0, 0, 0, 0, 0, 0⟩

/-- C1 scenario, step 0: open the erased file. -/
def c1_open : file_handle_t × Flash :=
  (file_open 300 erased512).getD (handle0, [])

/-- C1 scenario: write the 2-byte record `[10, 20]`. -/
def c1_w1 : WriteResult := file_write c1_open.2 c1_open.1 [10, 20] 2

/-- C1 scenario: write the 1-byte record `[30]`. -/
def c1_w2 : WriteResult := file_write c1_w1.flash c1_w1.handle [30] 1

/-- C1 scenario: first read call, 1 byte. -/
def c1_r1 : Nat × List Nat × file_handle_t :=
  (file_read 300 c1_w2.flash c1_w2.handle 1).getD (0, [], handle0)

/-- The handle after C1's first read: one byte into the first chunk. -/
def c1_h1 : file_handle_t := ⟨8, 1, 1, 1, 374, 2⟩

/-- The looping state of C1's second read: `raw_read_chunk_offset` has
reached the chunk size, and the loop body makes no further progress. -/
def c1_bad : file_handle_t := ⟨8, 1, 2, 1, 374, 2⟩

/-- C4 scenario: write the 2-byte record `[10, 20]`. -/
def c4_w1 : WriteResult := file_write c1_open.2 c1_open.1 [10, 20] 2

/-- C4 scenario: write the 2-byte record `[30, 40]`. -/
def c4_w2 : WriteResult := file_write c4_w1.flash c4_w1.handle [30, 40] 2

/-- C4 scenario: first read call, 1 byte. -/
def c4_r1 : Nat × List Nat × file_handle_t :=
  (file_read 300 c4_w2.flash c4_w2.handle 1).getD (0, [], handle0)

/-- The handle after C4's first read. -/
def c4_h1 : file_handle_t := ⟨9, 1, 1, 1, 373, 2⟩

/-- The looping state of C4's second read. -/
def c4_bad : file_handle_t := ⟨9, 1, 2, 1, 373, 2⟩

/-- C8 scenario: fill page 0 with a 60-byte and a 63-byte record, fill
page 1 with a 125-byte record, put a 20-byte record at the start of
page 2, read and consume the first record, then ask for 104 bytes. -/
def c8_w1 : WriteResult :=
  file_write c1_open.2 c1_open.1 (List.replicate 60 1) 60

/-- C8 scenario: second write (63 bytes, completing page 0). -/
def c8_w2 : WriteResult :=
  file_write c8_w1.flash c8_w1.handle (List.replicate 63 2) 63

/-- C8 scenario: third write (125 bytes, completing page 1). -/
def c8_w3 : WriteResult :=
  file_write c8_w2.flash c8_w2.handle (List.replicate 125 3) 125

/-- C8 scenario: fourth write (20 bytes, into page 2). -/
def c8_w4 : WriteResult :=
  file_write c8_w3.flash c8_w3.handle (List.replicate 20 4) 20

/-- C8 scenario: read the oldest record (60 bytes). -/
def c8_r : Nat × List Nat × file_handle_t :=
  (file_read 300 c8_w4.flash c8_w4.handle 60).getD (0, [], handle0)

/-- C8 scenario: consume the oldest record (60 bytes). -/
def c8_c : ConsumeResult :=
  (file_consume 300 c8_r.2.2 c8_w4.flash 60).getD ⟨0, handle0, [], []⟩

/-- C8 scenario: the 104-byte write that does not fit page 2.  Its
page advance lands the write head exactly on `FILE_SIZE` and the
source's `>` test fails to wrap it. -/
def c8_w5 : WriteResult :=
  file_write c8_c.flash c8_c.handle (List.replicate 104 5) 104

/-- C9 counterexample scenario: a 123-byte record leaves the write head
at offset 126, exactly 2 bytes before the page boundary. -/
def c9_w1 : WriteResult :=
  file_write c1_open.2 c1_open.1 (List.replicate 123 1) 123

/-- C9 counterexample scenario: the zero-length write whose 2-byte
header exactly fills page 0. -/
def c9_w2 : WriteResult := file_write c9_w1.flash c9_w1.handle [] 0

/-- C6 scenario: a 125-byte record exactly filling page 0 (the write
head then claims page 1, counter `0xFC`). -/
def c6_w1 : WriteResult :=
  file_write c1_open.2 c1_open.1 (List.replicate 125 1) 125

/-- C6 scenario: a 4-byte record at the start of page 1. -/
def c6_w2 : WriteResult := file_write c6_w1.flash c6_w1.handle [7, 8, 9, 6] 4

/-- C6 scenario: close (a no-op) and reopen on the resulting flash. -/
def c6_re : file_handle_t × Flash :=
  (file_open 300 c6_w2.flash).getD (handle0, [])

/-- C3 counterexample: a handle parked at the start of the (erased)
first page, as left behind by a wrap-around onto a freshly erased
page 0. -/
def c3_handle : file_handle_t := ⟨0, 1, 0, 1, 381, 1⟩

/-- C3 counterexample: an oversize write request (255 bytes) issued
from the parked handle. -/
def c3_result : WriteResult :=
  file_write erased512 c3_handle (List.replicate 255 7) 255

/-! ## Helper lemmas about the flash model -/

theorem flashRead_writeByte_ne {a b : Nat} (fl : Flash) (v : Nat)
    (hne : a ≠ b) : flashRead (flashWriteByte fl a v) b = flashRead fl b := by
  simp [flashRead, flashWriteByte, List.getD, List.getElem?_set_ne hne]

theorem flashRead_writeByte_self {a : Nat} (fl : Flash) (v : Nat)
    (hlt : a < fl.length) :
    flashRead (flashWriteByte fl a v) a = flashRead fl a &&& v := by
  simp [flashRead, flashWriteByte, List.getD, List.getElem?_set_self, hlt]

theorem length_flashWriteByte (fl : Flash) (a v : Nat) :
    (flashWriteByte fl a v).length = fl.length := by
  simp [flashWriteByte]

theorem length_flashWriteBytes (fl : Flash) (a : Nat) (bs : List Nat) :
    (flashWriteBytes fl a bs).length = fl.length := by
  induction bs generalizing fl a with
  | nil => rfl
  | cons b rest ih => simp [flashWriteBytes, ih, length_flashWriteByte]

theorem flashRead_writeBytes_out {b : Nat} (fl : Flash) (a : Nat)
    (bs : List Nat) (hout : b < a ∨ a + bs.length ≤ b) :
    flashRead (flashWriteBytes fl a bs) b = flashRead fl b := by
  induction bs generalizing fl a with
  | nil => rfl
  | cons x rest ih =>
    have hlen : (x :: rest).length = rest.length + 1 := by simp
    have hab : a ≠ b := by omega
    rw [flashWriteBytes, ih _ _ (by omega), flashRead_writeByte_ne _ _ hab]

theorem applyTrace_append (fl : Flash) (t1 t2 : List FlashEvent) :
    applyTrace fl (t1 ++ t2) = applyTrace (applyTrace fl t1) t2 := by
  simp [applyTrace, List.foldl_append]

theorem flashRead_applyTrace_out {b : Nat} (fl : Flash)
    (tr : List FlashEvent)
    (hout : ∀ e ∈ tr, b < e.addr ∨ e.addr + e.bytes.length ≤ b) :
    flashRead (applyTrace fl tr) b = flashRead fl b := by
  induction tr generalizing fl with
  | nil => rfl
  | cons e rest ih =>
    rw [applyTrace, List.foldl_cons]
    rw [show List.foldl (fun f e => flashWriteBytes f e.addr e.bytes)
          (flashWriteBytes fl e.addr e.bytes) rest
        = applyTrace (flashWriteBytes fl e.addr e.bytes) rest from rfl]
    rw [ih _ (fun x hx => hout x (List.mem_cons_of_mem _ hx)),
      flashRead_writeBytes_out _ _ _ (hout e (List.mem_cons_self _ _))]

theorem sub32_of_le {a b : Nat} (hba : b ≤ a) (ha : a < U32) :
    sub32 a b = a - b := by
  unfold sub32 U32 at *
  omega

set_option maxRecDepth 40000

set_option maxHeartbeats 1000000

/-! ## Claim theorems -/

/-- C10: `file_open` on a fully erased (all-`0xFF`) file region mutates
flash: it writes the page counter `0xFE` into byte 0 of page 0 (and
nothing else) and returns a handle with write head, raw read head and
destructive-read head all at offset 1 and `write_count` 2. -/
theorem C10_open_erased_claims_page0 :
    flashRead erased512 0 = 255
      ∧ file_open 300 erased512
          = some (⟨1, 1, 0, 1, 381, 2⟩, erased512.set 0 254) := by
  exact ⟨rfl, rfl⟩

/-- C3, counterexample: a `file_write` issued from a head parked at the
start of an erased page with an oversize length (255 ≥ `0xFF`, a reject
condition of the claim) returns 0 but still claims the page: the page
counter byte is written to flash and the RAM write head and write count
move, contradicting "no side effect whenever any reject condition
holds". -/
theorem C3_counterexample_reject_with_side_effect :
    (c3_result.ret, c3_result.handle.write_offset,
        c3_result.handle.write_count, flashRead c3_result.flash 0)
      = (0, 1, 2, 254)
    ∧ c3_handle.write_offset = 0 ∧ c3_handle.write_count = 1
    ∧ flashRead erased512 0 = 255 := by
  exact ⟨rfl, rfl, rfl, rfl⟩

/-- C3, amended: `file_write` returns 0 and leaves both the RAM handle
and the flash unchanged when the write head is stalled at the start of
a not-yet-erased page, or when the head is not at a page start and the
length is ≥ `0xFF`, or `len+2` exceeds `PAGE_SIZE - 1`, or `len+2`
exceeds `free_space`.  (When the head is parked at the start of an
*erased* page, the call first claims that page — writing its counter
byte and advancing the head — before the reject checks run.) -/
theorem C3_write_reject_no_side_effect (fl : Flash) (h : file_handle_t)
    (data : List Nat) (size : Nat)
    (hrej : (h.write_offset % FLASH_PAGE_SIZE = 0
              ∧ flashRead fl h.write_offset ≠ 255)
      ∨ (h.write_offset % FLASH_PAGE_SIZE ≠ 0
          ∧ (255 ≤ size ∨ FLASH_PAGE_SIZE < size + 2 + PAGE_COUNTER_SIZE
             ∨ h.free_space < size + 2))) :
    file_write fl h data size = ⟨0, h, fl, [], 0⟩ := by
  rcases hrej with ⟨h1, h2⟩ | ⟨h1, h2⟩
  · have hentry : write_entry fl h = (false, fl, [], h) := by
      unfold write_entry
      rw [if_pos h1, if_neg h2]
    unfold file_write
    rw [hentry]
    rfl
  · have hentry : write_entry fl h = (true, fl, [], h) := by
      unfold write_entry
      rw [if_neg h1]
    unfold file_write
    rw [hentry]
    show file_write_body fl [] h data size = _
    unfold file_write_body
    by_cases hA : 255 ≤ size
    · rw [if_pos hA]
    · rw [if_neg hA]
      by_cases hB : FLASH_PAGE_SIZE < size + 2 + PAGE_COUNTER_SIZE
      · rw [if_pos hB]
      · rw [if_neg hB]
        have hC : h.free_space < size + 2 := by tauto
        rw [if_pos hC]

/-- C3, witness for the amended theorem at a concrete input: head at
offset 5 (not a page start), request of 300 bytes (≥ `0xFF`). -/
theorem C3_write_reject_no_side_effect_witness :
    ((5 : Nat) % FLASH_PAGE_SIZE ≠ 0 ∧ 255 ≤ 300)
      ∧ file_write [255, 255, 255, 255, 255, 255] ⟨5, 1, 0, 1, 381, 1⟩
          [] 300 = ⟨0, ⟨5, 1, 0, 1, 381, 1⟩, [255, 255, 255, 255, 255, 255], [], 0⟩ := by
  refine ⟨⟨by decide, by decide⟩, ?_⟩
  exact C3_write_reject_no_side_effect _ _ _ _ (Or.inr ⟨by decide, Or.inl (by decide)⟩)

/-- C8: the claim says a head reaching `FILE_SIZE` during an advance is
reset to offset 1, so all heads stay below `FILE_SIZE`.  The code's
`advance_write_pointer_to_next_page` tests `write_offset > FILE_SIZE`
(strict), so a head landing exactly on `FILE_SIZE` is not wrapped: in
this reachable scenario the returning `file_write` call ends with
`write_offset = 385 = FILE_SIZE + 1` and has written a page-counter
byte (`0xF0`) at offset 384, outside the file's ring. -/
theorem C8_wrap_at_file_size_not_reset :
    (c8_w1.ret, c8_w2.ret, c8_w3.ret, c8_w4.ret, c8_r.1, c8_c.ret)
        = (60, 63, 125, 20, 60, 60)
    ∧ (c8_w5.ret, c8_w5.handle.write_offset, flashRead c8_c.flash 384,
        flashRead c8_w5.flash 384) = (0, 385, 255, 240)
    ∧ ¬ c8_w5.handle.write_offset < FILE_SIZE := by
  exact ⟨rfl, rfl, by decide⟩

/-- C7: the ordering invariant `destructive ≤ raw ≤ write` in the
ring's cyclic order fails after a returning operation: the same
wrap-bug scenario as C8 ends a returning `file_write` with the write
head at offset 385, which is not a ring position at all, so the three
heads (63, 63, 385) are not cyclically ordered. -/
theorem C7_ordering_invariant_violated :
    (c8_w5.ret, c8_w5.handle.destructive_read_offset,
        c8_w5.handle.raw_read_chunk_start, c8_w5.handle.write_offset)
      = (0, 63, 63, 385)
    ∧ ¬ ring_ordered 63 63 385 := by
  refine ⟨rfl, ?_⟩
  intro hord
  have := hord.2.2.1
  revert this
  decide

/-- C9, counterexample: the claim's hypothesis "at least 2 bytes of
room on the current page" also admits exactly 2 bytes of room.  There
the zero-length write's 2-byte header exactly fills the page, and the
write head does not stop at `write_offset + 2 = 128`: the call claims
the next page, writes its counter (`0xFC`) and leaves the head at 129,
with `write_count` bumped. -/
theorem C9_counterexample_exact_fill :
    (c9_w1.ret, c9_w1.handle.write_offset, c9_w1.handle.free_space,
        c9_w1.handle.write_count) = (123, 126, 256, 2)
    ∧ (c9_w2.ret, c9_w2.handle.write_offset, c9_w2.handle.write_count,
        flashRead c9_w2.flash 126, flashRead c9_w2.flash 127,
        flashRead c9_w2.flash 128) = (0, 129, 3, 0, 254, 252)
    ∧ c9_w2.handle.write_offset ≠ 126 + 2 := by
  exact ⟨rfl, rfl, by decide⟩

/-- C9, amended: for every open handle whose write head is not at a
page start and has strictly more than 2 bytes of room on the current
page (so the header does not exactly fill it), with `free_space ≥ 2`
and an erased state byte at `write_offset + 1`,
`file_write(handle, data, 0)` returns 0 yet is not a no-op: it writes
the committed two-byte header `(0x00, 0xFE)` at the write head,
advances the head by exactly 2, decreases `free_space` by 2, and
changes nothing else. -/
theorem C9_zero_length_write_not_noop (fl : Flash) (h : file_handle_t)
    (data : List Nat)
    (hwo : h.write_offset % FLASH_PAGE_SIZE ≠ 0)
    (hfit : h.write_offset + 2
      < FLASH_PAGE_SIZE * (h.write_offset / FLASH_PAGE_SIZE) + FLASH_PAGE_SIZE)
    (hwrap : h.write_offset + 2 < FILE_SIZE)
    (hfree : 2 ≤ h.free_space) (hfu : h.free_space < U32)
    (hlen : h.write_offset + 1 < fl.length)
    (herased : flashRead fl (h.write_offset + 1) = 255) :
    (file_write fl h data 0).ret = 0
    ∧ (file_write fl h data 0).handle
        = { h with write_offset := h.write_offset + 2,
                   free_space := h.free_space - 2 }
    ∧ flashRead (file_write fl h data 0).flash h.write_offset = 0
    ∧ flashRead (file_write fl h data 0).flash (h.write_offset + 1) = 254
    ∧ ∀ a, a ≠ h.write_offset → a ≠ h.write_offset + 1 →
        flashRead (file_write fl h data 0).flash a = flashRead fl a := by
  have hentry : write_entry fl h = (true, fl, [], h) := by
    unfold write_entry
    rw [if_neg hwo]
  have hfl1 : flashWriteBytes (flashWriteByte fl h.write_offset (0 % 256))
      (h.write_offset + 2) (data.take 0) = flashWriteByte fl h.write_offset 0
      := by rfl
  have hrd : flashRead (flashWriteByte fl h.write_offset 0) h.write_offset
      = 0 := by
    rw [flashRead_writeByte_self _ _ (by omega), Nat.and_zero]
  have hmod : ¬ (h.write_offset + 0 + 2) % FLASH_PAGE_SIZE = 0 := by
    unfold FLASH_PAGE_SIZE at hfit hwo ⊢
    omega
  have hres : file_write fl h data 0
      = ⟨0, { h with write_offset := h.write_offset + 0 + 2,
                     free_space := sub32 h.free_space (0 + 2) },
          flashWriteByte (flashWriteByte fl h.write_offset 0)
            (h.write_offset + 1) 254,
          [⟨h.write_offset, [0 % 256]⟩, ⟨h.write_offset + 2, data.take 0⟩,
           ⟨h.write_offset + 1, [254]⟩],
          h.write_offset⟩ := by
    unfold file_write
    rw [hentry]
    show file_write_body fl [] h data 0 = _
    unfold file_write_body
    dsimp only
    rw [if_neg (by omega : ¬ 255 ≤ 0),
      if_neg (by decide : ¬ FLASH_PAGE_SIZE < 0 + 2 + PAGE_COUNTER_SIZE),
      if_neg (by omega : ¬ h.free_space < 0 + 2),
      if_neg (by omega : ¬ FLASH_PAGE_SIZE * (h.write_offset / FLASH_PAGE_SIZE)
        + FLASH_PAGE_SIZE < h.write_offset + 0 + 2)]
    unfold file_write_commit
    dsimp only
    rw [if_neg hwo, if_neg (by omega : ¬ h.free_space < 0 + 2)]
    rw [hfl1]
    unfold advance_write_pointer
    dsimp only
    rw [flashRead_writeByte_ne _ _ (by omega), hrd]
    rw [if_neg (show ¬ FILE_SIZE ≤ h.write_offset + 0 + 2 by
      unfold FILE_SIZE at hwrap ⊢; omega)]
    rw [if_neg hmod]
    rfl
  rw [hres]
  refine ⟨rfl, ?_, ?_, ?_, ?_⟩
  · have : sub32 h.free_space (0 + 2) = h.free_space - 2 :=
      sub32_of_le (by omega) hfu
    simp [this]
  · rw [flashRead_writeByte_ne _ _ (by omega), hrd]
  · rw [flashRead_writeByte_self _ _ (by simp [length_flashWriteByte]; omega),
      flashRead_writeByte_ne _ _ (by omega), herased]
    decide
  · intro a ha1 ha2
    rw [flashRead_writeByte_ne _ _ (Ne.symm ha2),
      flashRead_writeByte_ne _ _ (Ne.symm ha1)]

/-- C9, witness for the amended theorem: the freshly opened handle
(write head at offset 1 of an erased page 0, 381 bytes free). -/
theorem C9_zero_length_write_not_noop_witness :
    ((1 : Nat) % FLASH_PAGE_SIZE ≠ 0 ∧ (1 : Nat) + 2 < FILE_SIZE
        ∧ (2 : Nat) ≤ 381 ∧ flashRead (erased512.set 0 254) 2 = 255)
    ∧ (file_write (erased512.set 0 254) ⟨1, 1, 0, 1, 381, 2⟩ [] 0).ret = 0
    ∧ (file_write (erased512.set 0 254) ⟨1, 1, 0, 1, 381, 2⟩ [] 0).handle
        = ⟨3, 1, 0, 1, 379, 2⟩
    ∧ flashRead (file_write (erased512.set 0 254) ⟨1, 1, 0, 1, 381, 2⟩ [] 0).flash 1
        = 0
    ∧ flashRead (file_write (erased512.set 0 254) ⟨1, 1, 0, 1, 381, 2⟩ [] 0).flash 2
        = 254 := by
  have hmain := C9_zero_length_write_not_noop (erased512.set 0 254)
    ⟨1, 1, 0, 1, 381, 2⟩ [] (by decide) (by decide) (by decide) (by decide)
    (by decide) (by simp [erased512]) (by rfl)
  exact ⟨⟨by decide, by decide, by decide, by rfl⟩, hmain.1, hmain.2.1,
    hmain.2.2.1, hmain.2.2.2.1⟩

/-- Helper for C1: one unfolding step of the second read call reaches
the no-progress state `c1_bad`. -/
theorem c1_first_iteration (f : Nat) :
    file_read_loop c1_w2.flash (f + 1) 0 2 [] c1_h1
      = file_read_loop c1_w2.flash f 1 1 [20] c1_bad := rfl

/-- Helper for C1: from `c1_bad` each loop iteration recreates the very
same state (`remaining_chunk_size` is 0 and `read_amount == chunk_size`
fails), so the loop only consumes fuel. -/
theorem c1_loop_stuck (f : Nat) :
    file_read_loop c1_w2.flash (f + 1) 1 1 [20] c1_bad
      = file_read_loop c1_w2.flash f 1 1 [20] c1_bad := rfl

/-- Helper for C1: the stuck loop never returns, for any fuel. -/
theorem c1_loop_none : ∀ f, file_read_loop c1_w2.flash f 1 1 [20] c1_bad = none
  | 0 => rfl
  | f + 1 => (c1_loop_stuck f).trans (c1_loop_none f)

/-- C1: the FIFO round-trip law fails.  Records of sizes 2 and 1 are
committed (`file_write` returned 2 and 1); a read of 1 byte succeeds and
returns the first payload byte, but the subsequent read of the remaining
2 bytes never returns: `file_read`'s continuation branch compares
`read_amount` against `chunk_size` instead of `remaining_chunk_size`, so
a call that resumes mid-chunk and crosses the chunk's end loops forever
(modelled as `none` for every fuel). -/
theorem C1_roundtrip_read_hangs :
    (file_open 300 erased512).isSome = true
    ∧ (c1_w1.ret, c1_w2.ret) = (2, 1)
    ∧ c1_r1 = (1, [10], c1_h1)
    ∧ ∀ fuel, file_read fuel c1_w2.flash c1_h1 2 = none := by
  refine ⟨rfl, rfl, rfl, ?_⟩
  intro fuel
  match fuel with
  | 0 => rfl
  | f + 1 => exact (c1_first_iteration f).trans (c1_loop_none f)

/-- Helper for C4: one unfolding step of the 3-byte read call reaches
the no-progress state `c4_bad`. -/
theorem c4_first_iteration (f : Nat) :
    file_read_loop c4_w2.flash (f + 1) 0 3 [] c4_h1
      = file_read_loop c4_w2.flash f 1 2 [20] c4_bad := rfl

/-- Helper for C4: the loop makes no progress from `c4_bad`. -/
theorem c4_loop_stuck (f : Nat) :
    file_read_loop c4_w2.flash (f + 1) 1 2 [20] c4_bad
      = file_read_loop c4_w2.flash f 1 2 [20] c4_bad := rfl

/-- Helper for C4: the stuck loop never returns, for any fuel. -/
theorem c4_loop_none : ∀ f, file_read_loop c4_w2.flash f 1 2 [20] c4_bad = none
  | 0 => rfl
  | f + 1 => (c4_loop_stuck f).trans (c4_loop_none f)

/-- C4: the claim says every `file_read(handle, buf, n)` on an open
handle returns between 0 and `n` payload bytes.  On the reachable state
below (two committed 2-byte records, first read consumed 1 byte of the
first chunk) the call `file_read(handle, buf, 3)` never returns at all:
the loop reaches a state with `raw_read_chunk_offset == chunk_size`
where it reads 0 bytes per iteration without terminating. -/
theorem C4_read_bounded_return_fails :
    (c4_w1.ret, c4_w2.ret) = (2, 2)
    ∧ c4_r1 = (1, [10], c4_h1)
    ∧ ∀ fuel, file_read fuel c4_w2.flash c4_h1 3 = none := by
  refine ⟨rfl, rfl, ?_⟩
  intro fuel
  match fuel with
  | 0 => rfl
  | f + 1 => exact (c4_first_iteration f).trans (c4_loop_none f)

/-- Helper for C5: whenever the `file_consume` loop returns, the
returned byte count equals the total size of the chunks this call
marked consumed (accumulated in the ghost `marked` list). -/
theorem file_consume_loop_sum :
    ∀ fuel i sz h fl m r, file_consume_loop fuel i sz h fl m = some r →
      r.ret + m.sum = i + r.marked.sum := by
  intro fuel
  induction fuel with
  | zero =>
    intro i sz h fl m r hr
    exact absurd hr (by simp [file_consume_loop])
  | succ n ih =>
    intro i sz h fl m r hr
    rw [file_consume_loop] at hr
    dsimp only at hr
    split_ifs at hr with h1 h2 h3
    · cases hr
      rfl
    · cases hr
      rfl
    · cases hr
      rfl
    · rcases hadv : advance_destructive_read_pointer_to_next_chunk n
        (flashWriteByte fl (h.destructive_read_offset + 1) 252) h with _ | h2
      · rw [hadv] at hr
        exact absurd hr (by simp)
      · rw [hadv] at hr
        have hrec := ih _ _ _ _ _ _ hr
        rw [List.sum_append] at hrec
        simp only [List.sum_cons, List.sum_nil] at hrec
        omega

/-- C5: `file_consume` only destroys whole chunks.  Part 1: if the
requested count is smaller than the size byte of the oldest unconsumed
chunk (the one at the destructive-read head), the call returns 0 and
changes neither the handle nor the flash and marks nothing.  Part 2: in
general, whenever a `file_consume` call returns, its return value is
exactly the total of the sizes of the chunks it marked `0xFC` (the
loop stops, leaving the tail chunk untouched, as soon as the next
chunk's size exceeds the remaining budget or the head reaches the raw
read head). -/
theorem C5_consume_whole_chunks :
    (∀ fuel h fl (k : Nat), 0 < fuel →
        k < flashRead fl h.destructive_read_offset →
        file_consume fuel h fl k = some ⟨0, h, fl, []⟩)
    ∧ (∀ fuel h fl k r, file_consume fuel h fl k = some r →
        r.ret = r.marked.sum) := by
  constructor
  · intro fuel h fl k hfuel hk
    match fuel, hfuel with
    | f + 1, _ =>
      rw [file_consume, file_consume_loop]
      dsimp only
      split_ifs with h1 h2
      · rfl
      · rfl
      · rfl
  · intro fuel h fl k r hr
    have := file_consume_loop_sum fuel 0 k h fl [] r hr
    simpa using this

/-- C5, witness: on the state with two committed 2-byte records wholly
read, a consume of 1 byte (smaller than the oldest chunk's size 2) is a
no-op returning 0, and a consume of 4 bytes returns exactly the total
size of the chunks it marked. -/
theorem C5_consume_whole_chunks_witness :
    ((0:Nat) < 300
      ∧ (1:Nat) < flashRead [254, 2, 254, 10, 20, 2, 254, 30, 40] 1)
    ∧ file_consume 300 ⟨9, 9, 0, 1, 373, 2⟩
        [254, 2, 254, 10, 20, 2, 254, 30, 40] 1
        = some ⟨0, ⟨9, 9, 0, 1, 373, 2⟩,
            [254, 2, 254, 10, 20, 2, 254, 30, 40], []⟩
    ∧ ∀ r, file_consume 300 ⟨9, 9, 0, 1, 373, 2⟩
        [254, 2, 254, 10, 20, 2, 254, 30, 40] 4 = some r →
        r.ret = r.marked.sum := by
  refine ⟨⟨by decide, by decide⟩, ?_, ?_⟩
  · exact C5_consume_whole_chunks.1 300 ⟨9, 9, 0, 1, 373, 2⟩
      [254, 2, 254, 10, 20, 2, 254, 30, 40] 1 (by decide) (by decide)
  · intro r hr
    exact C5_consume_whole_chunks.2 300 ⟨9, 9, 0, 1, 373, 2⟩
      [254, 2, 254, 10, 20, 2, 254, 30, 40] 4 r hr

/-- Helper for C6: each scan step can only lower `smallest`. -/
theorem swp_step_mono (fl : Flash) (acc : Nat × Nat × Nat) (i : Nat) :
    (swp_step fl acc i).2.2 ≤ acc.2.2 := by
  unfold swp_step
  dsimp only
  split_ifs <;> simp_all
  omega

/-- Helper for C6: after scanning a non-erased page, `smallest` is at
most that page's counter. -/
theorem swp_step_le_counter (fl : Flash) (acc : Nat × Nat × Nat) (i : Nat)
    (hne : flashRead fl (FLASH_PAGE_SIZE * i) ≠ 255) :
    (swp_step fl acc i).2.2 ≤ flashRead fl (FLASH_PAGE_SIZE * i) := by
  unfold swp_step
  dsimp only
  split_ifs with h1
  · simp
  · simp only [not_lt] at h1
    simpa using h1

/-- Helper for C6: a scan step either keeps both the selected page and
`smallest`, or selects page `i` together with its (non-erased) counter. -/
theorem swp_step_keep (fl : Flash) (acc : Nat × Nat × Nat) (i : Nat) :
    ((swp_step fl acc i).1 = acc.1 ∧ (swp_step fl acc i).2.2 = acc.2.2)
    ∨ ((swp_step fl acc i).1 = i
        ∧ (swp_step fl acc i).2.2 = flashRead fl (FLASH_PAGE_SIZE * i)
        ∧ flashRead fl (FLASH_PAGE_SIZE * i) ≠ 255) := by
  unfold swp_step
  dsimp only
  split_ifs with h1 h2
  · right
    exact ⟨rfl, rfl, h1⟩
  · left
    exact ⟨rfl, rfl⟩
  · left
    exact ⟨rfl, rfl⟩

/-- Helper for C6: the scan is the threefold iteration of the step. -/
theorem swp_scan_eq (fl : Flash) :
    swp_scan fl
      = swp_step fl (swp_step fl (swp_step fl (0, 0, 255) 0) 1) 2 := rfl

/-- Helper for C6: `smallest` is a lower bound of all non-erased page
counters. -/
theorem swp_scan_min (fl : Flash) :
    ∀ i, i < 3 → flashRead fl (FLASH_PAGE_SIZE * i) ≠ 255 →
      (swp_scan fl).2.2 ≤ flashRead fl (FLASH_PAGE_SIZE * i) := by
  intro i hi hne
  rw [swp_scan_eq]
  interval_cases i
  · exact le_trans (le_trans (swp_step_mono _ _ _) (swp_step_mono _ _ _))
      (swp_step_le_counter _ _ _ hne)
  · exact le_trans (swp_step_mono _ _ _) (swp_step_le_counter _ _ _ hne)
  · exact swp_step_le_counter _ _ _ hne

/-- Helper for C6: a non-erased `smallest` is attained by the counter of
the selected page. -/
theorem swp_scan_attained (fl : Flash) (hsm : (swp_scan fl).2.2 ≠ 255) :
    ∃ i, i < 3 ∧ flashRead fl (FLASH_PAGE_SIZE * i) = (swp_scan fl).2.2
      ∧ (swp_scan fl).1 = i := by
  rw [swp_scan_eq] at hsm ⊢
  rcases swp_step_keep fl (swp_step fl (swp_step fl (0, 0, 255) 0) 1) 2
    with ⟨ha1, ha2⟩ | ⟨ha1, ha2, ha3⟩
  · rcases swp_step_keep fl (swp_step fl (0, 0, 255) 0) 1
      with ⟨hb1, hb2⟩ | ⟨hb1, hb2, hb3⟩
    · rcases swp_step_keep fl (0, 0, 255) 0
        with ⟨hc1, hc2⟩ | ⟨hc1, hc2, hc3⟩
      · exact absurd (by rw [ha2, hb2, hc2]) hsm
      · exact ⟨0, by omega, by rw [ha2, hb2, hc2], by rw [ha1, hb1, hc1]⟩
    · exact ⟨1, by omega, by rw [ha2, hb2], by rw [ha1, hb1]⟩
  · exact ⟨2, by omega, by rw [ha2], by rw [ha1]⟩

/-- Helper for C6: a byte's popcount is at most 8. -/
theorem count_ones_le_eight : ∀ c, c < 256 → count_ones c ≤ 8 := by decide

/-- Helper for C6: the deduced `write_count` is `9 - popcount(smallest)`
with 9 wrapping to 1 (the code computes `8 - count_ones + 1`). -/
theorem swp_stage1_write_count (fl : Flash) (h : file_handle_t)
    (hsm : (swp_scan fl).2.2 < 255) :
    (swp_stage1 fl h).write_count
      = (if 9 - count_ones (swp_scan fl).2.2 = 9 then 1
         else 9 - count_ones (swp_scan fl).2.2) := by
  have hco : count_ones (swp_scan fl).2.2 ≤ 8 :=
    count_ones_le_eight _ (by omega)
  unfold swp_stage1
  dsimp only
  rw [if_pos hsm]
  have h9 : 8 - count_ones (swp_scan fl).2.2 + 1
      = 9 - count_ones (swp_scan fl).2.2 := by omega
  rw [h9]
  split_ifs <;> rfl

/-- Helper for C6: the head is sited on the selected page. -/
theorem swp_stage1_page (fl : Flash) (h : file_handle_t) :
    (swp_stage1 fl h).write_offset = (swp_scan fl).1 * FLASH_PAGE_SIZE := by
  unfold swp_stage1
  dsimp only
  split_ifs <;> rfl

/-- C6: recovery sites the write head on the page with the smallest
non-`0xFF` counter and deduces `write_count = 9 - popcount(counter)`
(with 9 wrapping to 1).  Parts 1-3 are general: the scanned `smallest`
is a lower bound of all non-erased counters, is attained on the
selected page (where the write head is sited), and `write_count`
follows the claimed formula.  Part 4 is the claim's concrete scenario:
pages written with counters `0xFE` then `0xFC`, closed and reopened;
recovery places the write head at offset 135 — inside the second
written page, right after that page's chunks (the first position
whose size byte is `0xFF`) — with `write_count = 3`. -/
theorem C6_recovery_write_head :
    (∀ fl i, i < 3 → flashRead fl (FLASH_PAGE_SIZE * i) ≠ 255 →
        (swp_scan fl).2.2 ≤ flashRead fl (FLASH_PAGE_SIZE * i))
    ∧ (∀ fl h, (swp_scan fl).2.2 ≠ 255 →
        ∃ i, i < 3 ∧ flashRead fl (FLASH_PAGE_SIZE * i) = (swp_scan fl).2.2
          ∧ (swp_stage1 fl h).write_offset = i * FLASH_PAGE_SIZE)
    ∧ (∀ fl h, (swp_scan fl).2.2 < 255 →
        (swp_stage1 fl h).write_count
          = (if 9 - count_ones (swp_scan fl).2.2 = 9 then 1
             else 9 - count_ones (swp_scan fl).2.2))
    ∧ ((c6_w1.ret, c6_w2.ret, flashRead c6_w2.flash 0,
          flashRead c6_w2.flash 128) = (125, 4, 254, 252)
        ∧ (file_open 300 c6_w2.flash).isSome = true
        ∧ (c6_re.1.write_offset, c6_re.1.write_count) = (135, 3)
        ∧ FLASH_PAGE_SIZE ≤ 135 ∧ 135 < 2 * FLASH_PAGE_SIZE) := by
  refine ⟨swp_scan_min, ?_, swp_stage1_write_count, ?_⟩
  · intro fl h hsm
    obtain ⟨i, hi, hat, hsel⟩ := swp_scan_attained fl hsm
    exact ⟨i, hi, hat, by rw [swp_stage1_page, hsel]⟩
  · exact ⟨rfl, rfl, rfl, by decide, by decide⟩

/-- C6, witness: the scenario flash of part 4 instantiates the general
parts: page 1's counter `0xFC` is non-erased, the scan selects it as
`smallest`, and the deduced `write_count` is `9 - popcount(0xFC) = 3`. -/
theorem C6_recovery_write_head_witness :
    ((1:Nat) < 3 ∧ flashRead c6_w2.flash (FLASH_PAGE_SIZE * 1) ≠ 255
      ∧ (swp_scan c6_w2.flash).2.2 < 255)
    ∧ (swp_scan c6_w2.flash).2.2 ≤ flashRead c6_w2.flash (FLASH_PAGE_SIZE * 1)
    ∧ (swp_stage1 c6_w2.flash handle0).write_count
        = (if 9 - count_ones (swp_scan c6_w2.flash).2.2 = 9 then 1
           else 9 - count_ones (swp_scan c6_w2.flash).2.2) := by
  refine ⟨⟨by decide, ?_, ?_⟩, ?_, ?_⟩
  · show (252 : Nat) ≠ 255
    decide
  · show (252 : Nat) < 255
    decide
  · exact C6_recovery_write_head.1 c6_w2.flash 1 (by decide)
      (by show (252 : Nat) ≠ 255; decide)
  · exact C6_recovery_write_head.2.2.1 c6_w2.flash handle0
      (by show (252 : Nat) < 255; decide)

/-- Helper for C2: the page-advance always lands the head on a page
boundary (`(FLASH_PAGE_SIZE - wo) % FLASH_PAGE_SIZE` in `uint32`
arithmetic is `-wo` modulo the page size). -/
theorem landing_mod (wo : Nat) :
    (wo + sub32 FLASH_PAGE_SIZE wo % FLASH_PAGE_SIZE) % FLASH_PAGE_SIZE = 0 := by
  unfold sub32 U32 FLASH_PAGE_SIZE
  omega

/-- Helper for C2: `advance_write_pointer` only appends page-counter
events (single bytes at page-boundary addresses) to the trace, and its
flash change is exactly the replay of those events. -/
theorem awp_spec (fl : Flash) (tr : List FlashEvent) (h : file_handle_t) :
    ∃ post, (advance_write_pointer fl tr h).2.1 = tr ++ post
      ∧ (∀ e ∈ post, e.addr % FLASH_PAGE_SIZE = 0 ∧ e.bytes.length = 1)
      ∧ (advance_write_pointer fl tr h).1 = applyTrace fl post := by
  unfold advance_write_pointer
  dsimp only
  split_ifs with h1 h2 h3 h4 h5 h6
  all_goals
    first
      | exact ⟨[], (List.append_nil tr).symm, by simp, rfl⟩
      | exact ⟨[⟨_, [(255 <<< h.write_count) % 256]⟩], rfl,
          by
            intro e he
            simp at he
            subst he
            refine ⟨?_, rfl⟩
            first
              | rfl
              | assumption, rfl⟩

/-- Helper for C2: likewise for `advance_write_pointer_to_next_page`;
moreover the resulting head lands on a page boundary or one byte past
one (after claiming the page). -/
theorem awptnp_spec (fl : Flash) (tr : List FlashEvent) (h : file_handle_t) :
    ∃ post, (advance_write_pointer_to_next_page fl tr h).2.1 = tr ++ post
      ∧ (∀ e ∈ post, e.addr % FLASH_PAGE_SIZE = 0 ∧ e.bytes.length = 1)
      ∧ (advance_write_pointer_to_next_page fl tr h).1 = applyTrace fl post
      ∧ ((advance_write_pointer_to_next_page fl tr h).2.2.write_offset
            % FLASH_PAGE_SIZE = 1
          ∨ (advance_write_pointer_to_next_page fl tr h).2.2.write_offset
            % FLASH_PAGE_SIZE = 0) := by
  have hland := landing_mod h.write_offset
  unfold advance_write_pointer_to_next_page
  dsimp only
  split_ifs
  all_goals
    first
      | (refine ⟨[], (List.append_nil tr).symm, by simp, rfl, Or.inr ?_⟩
         first
           | rfl
           | exact hland)
      | (refine ⟨[⟨_, [(255 <<< h.write_count) % 256]⟩], rfl,
           ?_, rfl, Or.inl ?_⟩
         · intro e he
           simp at he
           subst he
           refine ⟨?_, rfl⟩
           first
             | rfl
             | exact hland
         · first
             | rfl
             | (show (h.write_offset
                   + sub32 FLASH_PAGE_SIZE h.write_offset % FLASH_PAGE_SIZE
                   + PAGE_COUNTER_SIZE) % FLASH_PAGE_SIZE = 1
                have h0 := hland
                unfold FLASH_PAGE_SIZE at h0
                unfold FLASH_PAGE_SIZE PAGE_COUNTER_SIZE
                omega))

/-- Helper for C2: an accepted `file_write_commit` writes, in order, the
size byte at the chunk offset, the payload at offset +2, and the commit
byte `0xFE` at offset +1, followed only by page-counter events; the
flash change is the replay of exactly these events; and the chunk
offset is not a page-counter position. -/
theorem file_write_commit_spec (fl : Flash) (tr : List FlashEvent)
    (h : file_handle_t) (data : List Nat) (size : Nat)
    (hsz : size < 255)
    (hacc : (file_write_commit fl tr h data size).ret ≠ 0) :
    (file_write_commit fl tr h data size).ret = size
    ∧ (file_write_commit fl tr h data size).chunk_off = h.write_offset
    ∧ h.write_offset % FLASH_PAGE_SIZE ≠ 0
    ∧ ∃ post,
        (file_write_commit fl tr h data size).trace
          = tr ++ ([⟨h.write_offset, [size]⟩,
                    ⟨h.write_offset + 2, data.take size⟩,
                    ⟨h.write_offset + 1, [254]⟩] ++ post)
        ∧ (∀ e ∈ post, e.addr % FLASH_PAGE_SIZE = 0 ∧ e.bytes.length = 1)
        ∧ (file_write_commit fl tr h data size).flash
          = applyTrace fl ([⟨h.write_offset, [size]⟩,
                            ⟨h.write_offset + 2, data.take size⟩,
                            ⟨h.write_offset + 1, [254]⟩] ++ post) := by
  by_cases h1 : h.write_offset % FLASH_PAGE_SIZE = 0
  · exact absurd (by rw [file_write_commit, if_pos h1]) hacc
  by_cases h2 : h.free_space < size + 2
  · exact absurd (by rw [file_write_commit, if_neg h1, if_pos h2]) hacc
  have hmod : size % 256 = size := Nat.mod_eq_of_lt (by omega)
  have hred : file_write_commit fl tr h data size
      = ⟨size,
          (advance_write_pointer
            (flashWriteByte (flashWriteBytes
              (flashWriteByte fl h.write_offset (size % 256))
              (h.write_offset + 2) (data.take size)) (h.write_offset + 1) 254)
            (tr ++ [⟨h.write_offset, [size % 256]⟩,
                    ⟨h.write_offset + 2, data.take size⟩,
                    ⟨h.write_offset + 1, [254]⟩]) h).2.2,
          (advance_write_pointer
            (flashWriteByte (flashWriteBytes
              (flashWriteByte fl h.write_offset (size % 256))
              (h.write_offset + 2) (data.take size)) (h.write_offset + 1) 254)
            (tr ++ [⟨h.write_offset, [size % 256]⟩,
                    ⟨h.write_offset + 2, data.take size⟩,
                    ⟨h.write_offset + 1, [254]⟩]) h).1,
          (advance_write_pointer
            (flashWriteByte (flashWriteBytes
              (flashWriteByte fl h.write_offset (size % 256))
              (h.write_offset + 2) (data.take size)) (h.write_offset + 1) 254)
            (tr ++ [⟨h.write_offset, [size % 256]⟩,
                    ⟨h.write_offset + 2, data.take size⟩,
                    ⟨h.write_offset + 1, [254]⟩]) h).2.1,
          h.write_offset⟩ := by
    rw [file_write_commit, if_neg h1, if_neg h2]
  rw [hred]
  obtain ⟨post, hp1, hp2, hp3⟩ := awp_spec
    (flashWriteByte (flashWriteBytes
      (flashWriteByte fl h.write_offset (size % 256))
      (h.write_offset + 2) (data.take size)) (h.write_offset + 1) 254)
    (tr ++ [⟨h.write_offset, [size % 256]⟩,
            ⟨h.write_offset + 2, data.take size⟩,
            ⟨h.write_offset + 1, [254]⟩]) h
  refine ⟨rfl, rfl, h1, post, ?_, hp2, ?_⟩
  · rw [hp1, hmod, List.append_assoc]
  · rw [hp3, hmod]
    have hstage : flashWriteByte (flashWriteBytes
        (flashWriteByte fl h.write_offset size)
        (h.write_offset + 2) (data.take size)) (h.write_offset + 1) 254
        = applyTrace fl [⟨h.write_offset, [size]⟩,
                         ⟨h.write_offset + 2, data.take size⟩,
                         ⟨h.write_offset + 1, [254]⟩] := rfl
    rw [hstage, ← applyTrace_append]

/-- Helper for C2: an accepted `file_write_body` call has the committed
three-event core, preceded within the call only by page-counter events,
and its chunk offset leaves room for the whole chunk inside its page. -/
theorem file_write_body_spec (fl : Flash) (tr : List FlashEvent)
    (h : file_handle_t) (data : List Nat) (size : Nat)
    (hs : 1 ≤ size)
    (hacc : (file_write_body fl tr h data size).ret ≠ 0) :
    (file_write_body fl tr h data size).ret = size
    ∧ (file_write_body fl tr h data size).chunk_off % FLASH_PAGE_SIZE ≠ 0
    ∧ (file_write_body fl tr h data size).chunk_off % FLASH_PAGE_SIZE
        + size + 2 ≤ FLASH_PAGE_SIZE
    ∧ ∃ pre post,
        (file_write_body fl tr h data size).trace
          = tr ++ pre
              ++ ([⟨(file_write_body fl tr h data size).chunk_off, [size]⟩,
                   ⟨(file_write_body fl tr h data size).chunk_off + 2,
                     data.take size⟩,
                   ⟨(file_write_body fl tr h data size).chunk_off + 1, [254]⟩]
                  ++ post)
        ∧ (∀ e ∈ pre, e.addr % FLASH_PAGE_SIZE = 0 ∧ e.bytes.length = 1)
        ∧ (∀ e ∈ post, e.addr % FLASH_PAGE_SIZE = 0 ∧ e.bytes.length = 1)
        ∧ (file_write_body fl tr h data size).flash
          = applyTrace fl (pre
              ++ ([⟨(file_write_body fl tr h data size).chunk_off, [size]⟩,
                   ⟨(file_write_body fl tr h data size).chunk_off + 2,
                     data.take size⟩,
                   ⟨(file_write_body fl tr h data size).chunk_off + 1, [254]⟩]
                  ++ post)) := by
  by_cases c1 : 255 ≤ size
  · exact absurd (by rw [file_write_body, if_pos c1]) hacc
  by_cases c2 : FLASH_PAGE_SIZE < size + 2 + PAGE_COUNTER_SIZE
  · exact absurd (by rw [file_write_body, if_neg c1, if_pos c2]) hacc
  by_cases c3 : h.free_space < size + 2
  · exact absurd (by rw [file_write_body, if_neg c1, if_neg c2, if_pos c3]) hacc
  have hsz : size < 255 := by omega
  by_cases hD : FLASH_PAGE_SIZE * (h.write_offset / FLASH_PAGE_SIZE)
      + FLASH_PAGE_SIZE < h.write_offset + size + 2
  · have hred : file_write_body fl tr h data size
        = file_write_commit (advance_write_pointer_to_next_page fl tr h).1
            (advance_write_pointer_to_next_page fl tr h).2.1
            (advance_write_pointer_to_next_page fl tr h).2.2 data size := by
      rw [file_write_body, if_neg c1, if_neg c2, if_neg c3]
      dsimp only
      rw [if_pos hD]
    rw [hred] at hacc ⊢
    obtain ⟨pre, ha1, ha2, ha3, hwo⟩ := awptnp_spec fl tr h
    obtain ⟨hr1, hr2, hstall, post, ht, hpost, hfl⟩ :=
      file_write_commit_spec _ _ _ data size hsz hacc
    have hwo1 : (advance_write_pointer_to_next_page fl tr h).2.2.write_offset
        % FLASH_PAGE_SIZE = 1 := by
      tauto
    refine ⟨hr1, ?_, ?_, pre, post, ?_, ha2, hpost, ?_⟩
    · rw [hr2, hwo1]
      decide
    · rw [hr2, hwo1]
      unfold FLASH_PAGE_SIZE PAGE_COUNTER_SIZE at c2
      show 1 + size + 2 ≤ 128
      omega
    · rw [ht, hr2, ha1, List.append_assoc]
    · rw [hfl, hr2, ha3, ← applyTrace_append]
  · have hred : file_write_body fl tr h data size
        = file_write_commit fl tr h data size := by
      rw [file_write_body, if_neg c1, if_neg c2, if_neg c3]
      dsimp only
      rw [if_neg hD]
    rw [hred] at hacc ⊢
    obtain ⟨hr1, hr2, hstall, post, ht, hpost, hfl⟩ :=
      file_write_commit_spec fl tr h data size hsz hacc
    have hdm := Nat.div_add_mod h.write_offset FLASH_PAGE_SIZE
    refine ⟨hr1, ?_, ?_, [], post, ?_, by simp, hpost, ?_⟩
    · rw [hr2]
      exact hstall
    · rw [hr2]
      unfold FLASH_PAGE_SIZE at hD hdm ⊢
      omega
    · rw [ht, hr2]
      simp
    · rw [hfl, hr2]
      simp [applyTrace]

/-- Helper for C2: replaying events never changes the flash length. -/
theorem length_applyTrace (fl : Flash) (tr : List FlashEvent) :
    (applyTrace fl tr).length = fl.length := by
  induction tr generalizing fl with
  | nil => rfl
  | cons e rest ih =>
    rw [applyTrace, List.foldl_cons]
    rw [show List.foldl (fun f e => flashWriteBytes f e.addr e.bytes)
          (flashWriteBytes fl e.addr e.bytes) rest
        = applyTrace (flashWriteBytes fl e.addr e.bytes) rest from rfl]
    rw [ih, length_flashWriteBytes]

/-- Helper for C2: from the shape of an accepted write's trace, the
crash semantics follow: any prefix cut before the commit event leaves
the chunk's state byte untouched, and the full trace turns an erased
state byte (`0xFF`) into `0xFE`. -/
theorem trace_shape_consequences (fl : Flash) (tr pre post : List FlashEvent)
    (off size : Nat) (payload : List Nat)
    (htr : tr = pre ++ ([⟨off, [size]⟩, ⟨off + 2, payload⟩,
                         ⟨off + 1, [254]⟩] ++ post))
    (hpre : ∀ e ∈ pre, e.addr % FLASH_PAGE_SIZE = 0 ∧ e.bytes.length = 1)
    (hpost : ∀ e ∈ post, e.addr % FLASH_PAGE_SIZE = 0 ∧ e.bytes.length = 1)
    (hoff : (off + 1) % FLASH_PAGE_SIZE ≠ 0) :
    (∀ k, k ≤ pre.length + 2 →
      flashRead (applyTrace fl (tr.take k)) (off + 1)
        = flashRead fl (off + 1))
    ∧ (flashRead fl (off + 1) = 255 → off + 1 < fl.length →
        flashRead (applyTrace fl tr) (off + 1) = 254) := by
  have hout2 : ∀ e ∈ pre ++ [(⟨off, [size]⟩ : FlashEvent), ⟨off + 2, payload⟩],
      off + 1 < e.addr ∨ e.addr + e.bytes.length ≤ off + 1 := by
    intro e he
    rcases List.mem_append.mp he with hp | hsp
    · obtain ⟨ha, hl⟩ := hpre e hp
      have hne : e.addr ≠ off + 1 := fun hh => hoff (hh ▸ ha)
      rw [hl]
      omega
    · simp at hsp
      rcases hsp with he | he <;> subst he <;> simp
  have hre : tr = (pre ++ [(⟨off, [size]⟩ : FlashEvent), ⟨off + 2, payload⟩])
      ++ ([⟨off + 1, [254]⟩] ++ post) := by
    rw [htr]
    simp
  constructor
  · intro k hk
    rw [hre, List.take_append_of_le_length (by simp; omega)]
    exact flashRead_applyTrace_out fl _
      (fun e he => hout2 e (List.take_subset k _ he))
  · intro her hlen
    rw [hre, applyTrace_append, applyTrace_append]
    have hA : flashRead (applyTrace fl
        (pre ++ [(⟨off, [size]⟩ : FlashEvent), ⟨off + 2, payload⟩])) (off + 1)
        = 255 := by
      rw [flashRead_applyTrace_out fl _ hout2, her]
    have hB : flashRead (applyTrace (applyTrace fl
        (pre ++ [(⟨off, [size]⟩ : FlashEvent), ⟨off + 2, payload⟩]))
          [⟨off + 1, [254]⟩]) (off + 1) = 254 := by
      rw [show applyTrace (applyTrace fl
          (pre ++ [(⟨off, [size]⟩ : FlashEvent), ⟨off + 2, payload⟩]))
          [⟨off + 1, [254]⟩]
        = flashWriteByte (applyTrace fl
            (pre ++ [(⟨off, [size]⟩ : FlashEvent), ⟨off + 2, payload⟩]))
            (off + 1) 254 from rfl]
      rw [flashRead_writeByte_self _ _ (by rw [length_applyTrace]; omega), hA]
      decide
    have hC : ∀ e ∈ post, off + 1 < e.addr
        ∨ e.addr + e.bytes.length ≤ off + 1 := by
      intro e he
      obtain ⟨ha, hl⟩ := hpost e he
      have hne : e.addr ≠ off + 1 := fun hh => hoff (hh ▸ ha)
      rw [hl]
      omega
    rw [flashRead_applyTrace_out _ post hC, hB]

/-- C2: for every accepted `file_write` call the chunk's bytes reach
flash in exactly the order size byte (at the chunk offset), payload
(at offset +2), commit byte `0xFE` (at offset +1); any other flash
writes of the call are single page-counter bytes at page boundaries
(before or after the chunk's events).  Consequently, replaying any
prefix of the call's writes that stops before the commit event leaves
the chunk's state byte at its erased value `0xFF` (an Invalid chunk
that readers skip), while the full sequence leaves it at `0xFE` (the
record is durable). -/
theorem C2_write_order_and_commit_point (fl : Flash) (h : file_handle_t)
    (data : List Nat) (size : Nat) (hs : 1 ≤ size)
    (hacc : (file_write fl h data size).ret ≠ 0) :
    ∃ pre post,
      (file_write fl h data size).ret = size
      ∧ (file_write fl h data size).trace
          = pre ++ ([⟨(file_write fl h data size).chunk_off, [size]⟩,
                     ⟨(file_write fl h data size).chunk_off + 2, data.take size⟩,
                     ⟨(file_write fl h data size).chunk_off + 1, [254]⟩] ++ post)
      ∧ (∀ e ∈ pre ++ post, e.addr % FLASH_PAGE_SIZE = 0
          ∧ e.bytes.length = 1)
      ∧ (file_write fl h data size).chunk_off % FLASH_PAGE_SIZE ≠ 0
      ∧ ((file_write fl h data size).chunk_off + 1) % FLASH_PAGE_SIZE ≠ 0
      ∧ (file_write fl h data size).flash
          = applyTrace fl (file_write fl h data size).trace
      ∧ (∀ k, k ≤ pre.length + 2 →
          flashRead (applyTrace fl ((file_write fl h data size).trace.take k))
              ((file_write fl h data size).chunk_off + 1)
            = flashRead fl ((file_write fl h data size).chunk_off + 1))
      ∧ (flashRead fl ((file_write fl h data size).chunk_off + 1) = 255 →
          (file_write fl h data size).chunk_off + 1 < fl.length →
          flashRead (file_write fl h data size).flash
              ((file_write fl h data size).chunk_off + 1) = 254) := by
  by_cases hb : h.write_offset % FLASH_PAGE_SIZE = 0
  · by_cases hc : flashRead fl h.write_offset = 255
    · have hent : write_entry fl h
          = (true, flashWriteByte fl h.write_offset
                ((255 <<< h.write_count) % 256),
              [⟨h.write_offset, [(255 <<< h.write_count) % 256]⟩],
              { h with write_offset := h.write_offset + PAGE_COUNTER_SIZE,
                       write_count := if h.write_count + 1 = 9 then 1
                                      else h.write_count + 1 }) := by
        unfold write_entry
        rw [if_pos hb, if_pos hc]
      have hred : file_write fl h data size
          = file_write_body (flashWriteByte fl h.write_offset
                ((255 <<< h.write_count) % 256))
              [⟨h.write_offset, [(255 <<< h.write_count) % 256]⟩]
              { h with write_offset := h.write_offset + PAGE_COUNTER_SIZE,
                       write_count := if h.write_count + 1 = 9 then 1
                                      else h.write_count + 1 } data size := by
        unfold file_write
        rw [hent]
        rfl
      rw [hred] at hacc ⊢
      obtain ⟨hr1, hmo, hfit, pre2, post, ht, hpre2, hpost, hfl⟩ :=
        file_write_body_spec _ _ _ data size hs hacc
      have hoff1 : ((file_write_body (flashWriteByte fl h.write_offset
            ((255 <<< h.write_count) % 256))
            [⟨h.write_offset, [(255 <<< h.write_count) % 256]⟩]
            { h with write_offset := h.write_offset + PAGE_COUNTER_SIZE,
                     write_count := if h.write_count + 1 = 9 then 1
                                    else h.write_count + 1 } data
            size).chunk_off + 1) % FLASH_PAGE_SIZE ≠ 0 := by
        unfold FLASH_PAGE_SIZE at hmo hfit ⊢
        omega
      have hpre_cons : ∀ e ∈ (⟨h.write_offset,
            [(255 <<< h.write_count) % 256]⟩ : FlashEvent) :: pre2,
          e.addr % FLASH_PAGE_SIZE = 0 ∧ e.bytes.length = 1 := by
        intro e he
        rcases List.mem_cons.mp he with he0 | he1
        · subst he0
          exact ⟨hb, rfl⟩
        · exact hpre2 e he1
      have hcoh : (file_write_body (flashWriteByte fl h.write_offset
            ((255 <<< h.write_count) % 256))
            [⟨h.write_offset, [(255 <<< h.write_count) % 256]⟩]
            { h with write_offset := h.write_offset + PAGE_COUNTER_SIZE,
                     write_count := if h.write_count + 1 = 9 then 1
                                    else h.write_count + 1 } data size).flash
          = applyTrace fl (file_write_body (flashWriteByte fl h.write_offset
              ((255 <<< h.write_count) % 256))
              [⟨h.write_offset, [(255 <<< h.write_count) % 256]⟩]
              { h with write_offset := h.write_offset + PAGE_COUNTER_SIZE,
                       write_count := if h.write_count + 1 = 9 then 1
                                      else h.write_count + 1 } data
              size).trace := by
        rw [hfl, ht]
        rw [show flashWriteByte fl h.write_offset ((255 <<< h.write_count) % 256)
            = applyTrace fl [⟨h.write_offset, [(255 <<< h.write_count) % 256]⟩]
          from rfl, ← applyTrace_append]
        simp
      obtain ⟨hcons1, hcons2⟩ := trace_shape_consequences fl
        (file_write_body (flashWriteByte fl h.write_offset
            ((255 <<< h.write_count) % 256))
            [⟨h.write_offset, [(255 <<< h.write_count) % 256]⟩]
            { h with write_offset := h.write_offset + PAGE_COUNTER_SIZE,
                     write_count := if h.write_count + 1 = 9 then 1
                                    else h.write_count + 1 } data size).trace
        (⟨h.write_offset, [(255 <<< h.write_count) % 256]⟩ :: pre2) post
        (file_write_body (flashWriteByte fl h.write_offset
            ((255 <<< h.write_count) % 256))
            [⟨h.write_offset, [(255 <<< h.write_count) % 256]⟩]
            { h with write_offset := h.write_offset + PAGE_COUNTER_SIZE,
                     write_count := if h.write_count + 1 = 9 then 1
                                    else h.write_count + 1 } data size).chunk_off
        size (data.take size) (by rw [ht]; simp) hpre_cons hpost hoff1
      refine ⟨⟨h.write_offset, [(255 <<< h.write_count) % 256]⟩ :: pre2,
        post, hr1, by rw [ht]; simp, ?_, hmo, hoff1, hcoh, hcons1, ?_⟩
      · intro e he
        rcases List.mem_append.mp he with h1 | h2
        · exact hpre_cons e h1
        · exact hpost e h2
      · intro her hlen
        rw [hcoh]
        exact hcons2 her hlen
    · have hent : write_entry fl h = (false, fl, [], h) := by
        unfold write_entry
        rw [if_pos hb, if_neg hc]
      have hred : file_write fl h data size = ⟨0, h, fl, [], 0⟩ := by
        unfold file_write
        rw [hent]
        rfl
      rw [hred] at hacc
      exact absurd rfl hacc
  · have hent : write_entry fl h = (true, fl, [], h) := by
      unfold write_entry
      rw [if_neg hb]
    have hred : file_write fl h data size
        = file_write_body fl [] h data size := by
      unfold file_write
      rw [hent]
      rfl
    rw [hred] at hacc ⊢
    obtain ⟨hr1, hmo, hfit, pre2, post, ht, hpre2, hpost, hfl⟩ :=
      file_write_body_spec fl [] h data size hs hacc
    have hoff1 : ((file_write_body fl [] h data size).chunk_off + 1)
        % FLASH_PAGE_SIZE ≠ 0 := by
      unfold FLASH_PAGE_SIZE at hmo hfit ⊢
      omega
    have hcoh : (file_write_body fl [] h data size).flash
        = applyTrace fl (file_write_body fl [] h data size).trace := by
      rw [hfl, ht]
      simp
    obtain ⟨hcons1, hcons2⟩ := trace_shape_consequences fl
      (file_write_body fl [] h data size).trace pre2 post
      (file_write_body fl [] h data size).chunk_off size (data.take size)
      (by rw [ht]; simp) hpre2 hpost hoff1
    refine ⟨pre2, post, hr1, by rw [ht]; simp, ?_, hmo, hoff1, hcoh,
      hcons1, ?_⟩
    · intro e he
      rcases List.mem_append.mp he with h1 | h2
      · exact hpre2 e h1
      · exact hpost e h2
    · intro her hlen
      rw [hcoh]
      exact hcons2 her hlen

/-- C2, witness: a 3-byte record written from the freshly opened handle
(write head at offset 1, state byte at offset 2 erased). -/
theorem C2_write_order_and_commit_point_witness :
    ((1:Nat) ≤ 3
      ∧ (file_write (erased512.set 0 254) ⟨1, 1, 0, 1, 381, 2⟩
          [5, 6, 7] 3).ret ≠ 0)
    ∧ ∃ pre post,
      (file_write (erased512.set 0 254) ⟨1, 1, 0, 1, 381, 2⟩
          [5, 6, 7] 3).ret = 3
      ∧ (file_write (erased512.set 0 254) ⟨1, 1, 0, 1, 381, 2⟩
            [5, 6, 7] 3).trace
          = pre ++ ([⟨(file_write (erased512.set 0 254) ⟨1, 1, 0, 1, 381, 2⟩
                        [5, 6, 7] 3).chunk_off, [3]⟩,
                     ⟨(file_write (erased512.set 0 254) ⟨1, 1, 0, 1, 381, 2⟩
                        [5, 6, 7] 3).chunk_off + 2, List.take 3 [5, 6, 7]⟩,
                     ⟨(file_write (erased512.set 0 254) ⟨1, 1, 0, 1, 381, 2⟩
                        [5, 6, 7] 3).chunk_off + 1, [254]⟩] ++ post)
      ∧ (∀ e ∈ pre ++ post, e.addr % FLASH_PAGE_SIZE = 0
          ∧ e.bytes.length = 1)
      ∧ (file_write (erased512.set 0 254) ⟨1, 1, 0, 1, 381, 2⟩
            [5, 6, 7] 3).chunk_off % FLASH_PAGE_SIZE ≠ 0
      ∧ ((file_write (erased512.set 0 254) ⟨1, 1, 0, 1, 381, 2⟩
            [5, 6, 7] 3).chunk_off + 1) % FLASH_PAGE_SIZE ≠ 0
      ∧ (file_write (erased512.set 0 254) ⟨1, 1, 0, 1, 381, 2⟩
            [5, 6, 7] 3).flash
          = applyTrace (erased512.set 0 254)
              (file_write (erased512.set 0 254) ⟨1, 1, 0, 1, 381, 2⟩
                [5, 6, 7] 3).trace
      ∧ (∀ k, k ≤ pre.length + 2 →
          flashRead (applyTrace (erased512.set 0 254)
              ((file_write (erased512.set 0 254) ⟨1, 1, 0, 1, 381, 2⟩
                [5, 6, 7] 3).trace.take k))
              ((file_write (erased512.set 0 254) ⟨1, 1, 0, 1, 381, 2⟩
                [5, 6, 7] 3).chunk_off + 1)
            = flashRead (erased512.set 0 254)
              ((file_write (erased512.set 0 254) ⟨1, 1, 0, 1, 381, 2⟩
                [5, 6, 7] 3).chunk_off + 1))
      ∧ (flashRead (erased512.set 0 254)
            ((file_write (erased512.set 0 254) ⟨1, 1, 0, 1, 381, 2⟩
              [5, 6, 7] 3).chunk_off + 1) = 255 →
          (file_write (erased512.set 0 254) ⟨1, 1, 0, 1, 381, 2⟩
            [5, 6, 7] 3).chunk_off + 1 < (erased512.set 0 254).length →
          flashRead (file_write (erased512.set 0 254) ⟨1, 1, 0, 1, 381, 2⟩
              [5, 6, 7] 3).flash
              ((file_write (erased512.set 0 254) ⟨1, 1, 0, 1, 381, 2⟩
                [5, 6, 7] 3).chunk_off + 1) = 254) := by
  exact ⟨⟨by decide, by decide⟩,
    C2_write_order_and_commit_point (erased512.set 0 254) ⟨1, 1, 0, 1, 381, 2⟩
      [5, 6, 7] 3 (by decide) (by decide)⟩

end FlashFIFO
